import Mathlib

/-!
Shallow embedding of the gojson-rules-engine core (package `rulesengine`)
and proofs about its specification claims.

Source files embedded (the live `package rulesengine` snapshot):
  * ValueNode / DataType            — src/unnamed/part_020
  * default operators               — src/rulesengine/default_operators.go (ValueNode half)
  * Operator                        — src/unnamed/part_006 (ValueNode half)
  * Fact / FactMap / NewValueFromGjson — src/rulesengine/fact.go
  * Almanac                         — src/almanac.go (the ValueNode-based almanac)
  * Condition                       — src/rulesengine/condition.go
  * Rule evaluation                 — src/unnamed/part_001 (rulesengine rule.go)
  * Engine                          — src/rulesengine/engine.go, src/rulesengine/shared_types.go

Modelling conventions:
  * Go `float64` numbers are modelled as `Rat`; every number reaching the
    engine comes from parsed JSON, which contains only finite decimals.
  * Go maps used as registries (keyed by strings) are modelled as
    association lists with one binding per key; `sync.Map`/hashing in
    `FactMap` is an optimization over the canonical string key.
  * The concurrent fan-out (goroutines + channels + semaphore) is modelled
    by the sequential schedule in which each spawned goroutine runs to
    completion in spawn order; the loops that collect results are folds.
  * Go panics are modelled explicitly where a claim is about them
    (`GoFun`, `CalcOutcome`); a recovered panic in a function with
    *unnamed* result parameters makes the function return the zero values
    of its result types (Go spec: deferred assignments to a local variable
    do not change unnamed results).
-/

namespace GoJson

/-- `DataType` from part_020: the tag of a `ValueNode`. -/
inductive DataType where
  | null
  | bool
  | number
  | string
  | array
  | object
deriving DecidableEq, Repr

/-- `ValueNode` from part_020: a struct holding a tag and one field per
possible payload (Go keeps all fields side by side; the tag selects the
meaningful one, the rest stay zero-valued). -/
inductive ValueNode where
  | mk (ty : DataType) (b : Bool) (num : Rat) (str : String)
      (arr : List ValueNode) (obj : List (String × ValueNode))
deriving Repr

/-- Field `Type` of `ValueNode`. -/
def ValueNode.ty : ValueNode → DataType
  | .mk t _ _ _ _ _ => t

/-- Field `Bool` of `ValueNode`. -/
def ValueNode.b : ValueNode → Bool
  | .mk _ b _ _ _ _ => b

/-- Field `Number` of `ValueNode`. -/
def ValueNode.num : ValueNode → Rat
  | .mk _ _ n _ _ _ => n

/-- Field `String` of `ValueNode`. -/
def ValueNode.str : ValueNode → String
  | .mk _ _ _ s _ _ => s

/-- Field `Array` of `ValueNode`. -/
def ValueNode.arr : ValueNode → List ValueNode
  | .mk _ _ _ _ a _ => a

/-- Field `Object` of `ValueNode`. -/
def ValueNode.obj : ValueNode → List (String × ValueNode)
  | .mk _ _ _ _ _ o => o

/-- The zero `ValueNode` (`&ValueNode{Type: Null}` and the Go zero value). -/
def nullValueNode : ValueNode := .mk .null false 0 "" [] []

/-- Convenience constructor for a number node. -/
def numNode (q : Rat) : ValueNode := .mk .number false q "" [] []

/-- Convenience constructor for a string node. -/
def strNode (s : String) : ValueNode := .mk .string false 0 s [] []

/-- Convenience constructor for a bool node. -/
def boolNode (b : Bool) : ValueNode := .mk .bool b 0 "" [] []

/-- Convenience constructor for an array node. -/
def arrNode (l : List ValueNode) : ValueNode := .mk .array false 0 "" l []

/-- Convenience constructor for an object node. -/
def objNode (o : List (String × ValueNode)) : ValueNode := .mk .object false 0 "" [] o

/-- `(v *ValueNode) IsArray()` from part_020. -/
def ValueNode.IsArray (v : ValueNode) : Bool := v.ty == .array

/-- `(v *ValueNode) IsObject()` from part_020. -/
def ValueNode.IsObject (v : ValueNode) : Bool := v.ty == .object

/-- `(v *ValueNode) IsNull()` from part_020. -/
def ValueNode.IsNull (v : ValueNode) : Bool := v.ty == .null

/-- `(v *ValueNode) IsBool()` from part_020. -/
def ValueNode.IsBool (v : ValueNode) : Bool := v.ty == .bool

/-- `(v *ValueNode) IsNumber()` from part_020. -/
def ValueNode.IsNumber (v : ValueNode) : Bool := v.ty == .number

/-- `(v *ValueNode) IsString()` from part_020. -/
def ValueNode.IsString (v : ValueNode) : Bool := v.ty == .string

/-- `(v *ValueNode) SameType(other)` from part_020. -/
def ValueNode.SameType (v other : ValueNode) : Bool := v.ty == other.ty

mutual

/-- `EvalEqual` from default_operators.go: compares the tags first
(`SameType`), then the payload selected by the tag.  The `switch` has
cases only for `String`, `Number`, `Bool` and `Array`; `Null` and
`Object` fall into `default: return false`. -/
def EvalEqual : ValueNode → ValueNode → Bool
  | .mk ta ba na sa ara _, .mk tb bb nb sb arb _ =>
    if ta != tb then false
    else match ta with
      | .string => sa == sb
      | .number => na == nb
      | .bool => ba == bb
      | .array => evalEqualArrays ara arb
      | _ => false

/-- The array branch of `EvalEqual`: length check followed by the
element-wise loop `for i { if !EvalEqual(&a.Array[i], &b.Array[i]) ... }`. -/
def evalEqualArrays : List ValueNode → List ValueNode → Bool
  | [], [] => true
  | x :: xs, y :: ys => EvalEqual x y && evalEqualArrays xs ys
  | _, _ => false

end

/-- `EvalNotEquals` from default_operators.go. -/
def EvalNotEquals (a b : ValueNode) : Bool := !EvalEqual a b

/-- The element loop of `EvalIn`: Go iterates `b.Array`, skips items whose
type differs from `a` (`continue`), and returns true on the first
`EvalEqual(a, &item)`. -/
def evalInLoop (a : ValueNode) : List ValueNode → Bool
  | [] => false
  | item :: rest =>
    if a.ty != item.ty then evalInLoop a rest
    else if EvalEqual a item then true
    else evalInLoop a rest

/-- `EvalIn` from default_operators.go: `b` must be an array; `a` is
searched for among its elements. -/
def EvalIn (a b : ValueNode) : Bool :=
  if !b.IsArray then false
  else evalInLoop a b.arr

/-- `EvalNotIn` from default_operators.go. -/
def EvalNotIn (a b : ValueNode) : Bool := !EvalIn a b

/-- `EvalLessThan` from default_operators.go. -/
def EvalLessThan (a b : ValueNode) : Bool :=
  if !a.IsNumber || !b.IsNumber then false else decide (a.num < b.num)

/-- `EvalLessThanOrEqual` from default_operators.go. -/
def EvalLessThanOrEqual (a b : ValueNode) : Bool :=
  if !a.IsNumber || !b.IsNumber then false else decide (a.num ≤ b.num)

/-- `EvalGreaterThan` from default_operators.go. -/
def EvalGreaterThan (a b : ValueNode) : Bool :=
  if !a.IsNumber || !b.IsNumber then false else decide (b.num < a.num)

/-- `EvalGreaterOrEqual` from default_operators.go. -/
def EvalGreaterOrEqual (a b : ValueNode) : Bool :=
  if !a.IsNumber || !b.IsNumber then false else decide (b.num ≤ a.num)

/-- `EvalStartsWith` from default_operators.go (`strings.HasPrefix`). -/
def EvalStartsWith (a b : ValueNode) : Bool :=
  if !a.IsString || !b.IsString then false else a.str.startsWith b.str

/-- `EvalEndsWith` from default_operators.go (`strings.HasSuffix`). -/
def EvalEndsWith (a b : ValueNode) : Bool :=
  if !a.IsString || !b.IsString then false else a.str.endsWith b.str

/-- Models `strings.Contains`: some suffix of `s` starts with `sub`. -/
def goStringContains (s sub : String) : Bool :=
  (List.range (s.length + 1)).any (fun i => (s.drop i).startsWith sub)

/-- `EvalIncludes` from default_operators.go (`strings.Contains`). -/
def EvalIncludes (a b : ValueNode) : Bool :=
  if !a.IsString || !b.IsString then false else goStringContains a.str b.str

/-- Validator `exists` from default_operators.go (ValueNode half). -/
def existsValidator (a : ValueNode) : Bool := a.ty != .null

/-- Validator `isArray` from default_operators.go (ValueNode half):
`a.Type != Null && a.IsArray()`. -/
def isArray (a : ValueNode) : Bool := a.ty != .null && a.IsArray

/-- Validator `numberValidator` from default_operators.go. -/
def numberValidator (a : ValueNode) : Bool := a.ty == .number

/-- Validator `stringValidator` from default_operators.go. -/
def stringValidator (a : ValueNode) : Bool := a.ty == .string

/-- `Operator` from part_006 (ValueNode half): a named binary predicate
with a validator applied to the fact value. -/
structure Operator where
  Name : String
  Callback : ValueNode → ValueNode → Bool
  FactValueValidator : ValueNode → Bool

/-- `NewOperator` from part_006: empty name is an error; a `nil`
validator defaults to always-true.  (A `nil` callback cannot be
expressed in the embedding; all call sites pass one.) -/
def NewOperator (name : String) (cb : ValueNode → ValueNode → Bool)
    (factValueValidator : Option (ValueNode → Bool)) : Except String Operator :=
  if name = "" then .error "Missing operator name"
  else .ok { Name := name, Callback := cb,
             FactValueValidator := factValueValidator.getD (fun _ => true) }

/-- `(o *Operator) Evaluate(a, b)` from part_006:
`o.FactValueValidator(a) && o.Callback(a, b)`. -/
def Operator.Evaluate (o : Operator) (a b : ValueNode) : Bool :=
  o.FactValueValidator a && o.Callback a b

/-- Helper mirroring the registration pattern
`op, _ := NewOperator(name, cb, v); operators = append(operators, *op)`:
the error is discarded; every registration uses a nonempty name, for
which `NewOperator` always succeeds. -/
def regOp (name : String) (cb : ValueNode → ValueNode → Bool)
    (v : Option (ValueNode → Bool)) : Operator :=
  match NewOperator name cb v with
  | .ok o => o
  | .error _ => { Name := name, Callback := cb, FactValueValidator := fun _ => true }

/-- The `contains` registration from `DefaultOperators` (default_operators.go):
`NewOperator("contains", EvalIn, isArray)` — note the callback is `EvalIn`. -/
def containsOperator : Operator := regOp "contains" EvalIn (some isArray)

/-- The `doesNotContain` registration from `DefaultOperators`:
`NewOperator("doesNotContain", EvalNotIn, isArray)`. -/
def doesNotContainOperator : Operator := regOp "doesNotContain" EvalNotIn (some isArray)

/-- The `in` registration from `DefaultOperators`. -/
def inOperator : Operator := regOp "in" EvalIn (some isArray)

/-- The `notIn` registration from `DefaultOperators`. -/
def notInOperator : Operator := regOp "notIn" EvalNotIn (some isArray)

/-- The `equal` registration from `DefaultOperators` (validator `nil`). -/
def equalOperator : Operator := regOp "equal" EvalEqual none

/-- The `notEqual` registration from `DefaultOperators` (validator `nil`). -/
def notEqualOperator : Operator := regOp "notEqual" EvalNotEquals none

/-- `DefaultOperators()` from default_operators.go (ValueNode half), in
registration order, aliases included. -/
def DefaultOperators : List Operator :=
  [ equalOperator, regOp "=" EvalEqual none, regOp "eq" EvalEqual none,
    notEqualOperator, regOp "ne" EvalNotEquals none, regOp "!=" EvalNotEquals none,
    inOperator,
    notInOperator,
    containsOperator,
    doesNotContainOperator,
    regOp "lessThan" EvalLessThan (some numberValidator),
    regOp "<" EvalLessThan (some numberValidator),
    regOp "lt" EvalLessThan (some numberValidator),
    regOp "lessThanInclusive" EvalLessThanOrEqual (some numberValidator),
    regOp "<=" EvalLessThanOrEqual (some numberValidator),
    regOp "lte" EvalLessThanOrEqual (some numberValidator),
    regOp "greaterThan" EvalGreaterThan (some numberValidator),
    regOp ">" EvalGreaterThan (some numberValidator),
    regOp "gt" EvalGreaterThan (some numberValidator),
    regOp "greaterThanInclusive" EvalGreaterOrEqual (some numberValidator),
    regOp ">=" EvalGreaterOrEqual (some numberValidator),
    regOp "gte" EvalGreaterOrEqual (some numberValidator),
    regOp "startsWith" EvalStartsWith (some stringValidator),
    regOp "endsWith" EvalEndsWith (some stringValidator),
    regOp "includes" EvalIncludes (some stringValidator) ]

/-! ## gjson collaborator and the fact model -/

/-- A parsed JSON node as handed over by the external `gjson`
collaborator.  `gjson.Result.Type` distinguishes `Null`, `True`/`False`,
`Number`, `String` and `JSON`; a `JSON` node is an array
(`IsArray()`) or an object. -/
inductive GjsonValue where
  | null
  | boolean (b : Bool)
  | number (n : Rat)
  | str (s : String)
  | jsonArray (elems : List GjsonValue)
  | jsonObject (fields : List (String × GjsonValue))
deriving Repr

/-- First binding for a key in an association list (one binding per key,
like a Go map). -/
def lookupAssoc {α : Type} (m : List (String × α)) (k : String) : Option α :=
  match m with
  | [] => none
  | (k', v) :: rest => if k' = k then some v else lookupAssoc rest k

/-- Go map assignment `m[k] = v`: replace the binding if present, else add. -/
def setAssoc {α : Type} (m : List (String × α)) (k : String) (v : α) :
    List (String × α) :=
  match m with
  | [] => [(k, v)]
  | (k', v') :: rest =>
    if k' = k then (k, v) :: rest else (k', v') :: setAssoc rest k v

/-- Descend a parsed JSON tree along a list of keys (object fields). -/
def gjsonLook : GjsonValue → List String → Option GjsonValue
  | v, [] => some v
  | .jsonObject fields, k :: ks =>
    match lookupAssoc fields k with
    | some v => gjsonLook v ks
    | none => none
  | _, _ :: _ => none

/-- Split a dotted path into its keys (`"user.lastName"` becomes
`["user", "lastName"]`). -/
def splitOnDotAux : List Char → List Char → List String
  | [], acc => [String.mk acc.reverse]
  | c :: cs, acc =>
    if c = '.' then String.mk acc.reverse :: splitOnDotAux cs []
    else splitOnDotAux cs (c :: acc)

/-- Split a dotted fact path into its keys. -/
def splitPath (p : String) : List String := splitOnDotAux p.toList []

/-- Modelled from the spec: the path lookup of the external JSON collaborator,
`get(root, path) → Optional<JsonNode>` (§6), with the dotted-path
convention `user.lastName`; `none` models a `gjson.Result` whose
`Exists()` is false. -/
def gjsonGet (root : GjsonValue) (path : String) : Option GjsonValue :=
  gjsonLook root (splitPath path)

mutual

/-- `NewValueFromGjson` from fact.go: `Null`/`String`/`Number`/bool map to
the same-tagged `ValueNode`; a `JSON` node maps to an array node when
`IsArray()` and otherwise (objects included) to `&ValueNode{Type: Null}`;
the `default` branch is also `Null`. -/
def NewValueFromGjson : GjsonValue → ValueNode
  | .null => nullValueNode
  | .str s => strNode s
  | .number n => numNode n
  | .boolean b => boolNode b
  | .jsonArray elems => arrNode (newValuesFromGjson elems)
  | .jsonObject _ => nullValueNode

/-- The `ForEach` loop inside the array branch of `NewValueFromGjson`. -/
def newValuesFromGjson : List GjsonValue → List ValueNode
  | [] => []
  | v :: rest => NewValueFromGjson v :: newValuesFromGjson rest

end

/-- What the callback of a dynamic fact does when invoked.  The Go callback
`func(almanac *Almanac, params ...interface{}) *ValueNode` is external
code: it either returns a value or panics.  (The almanac argument cannot
occur in the field type without a negative occurrence; no claim depends
on a callback that reads the almanac.) -/
inductive CalcOutcome where
  | returns (v : ValueNode)
  | panics (msg : String)
deriving Repr

/-- `FactOptions` from shared_types.go. -/
structure FactOptions where
  Cache : Bool
  Priority : Int
deriving Repr

/-- `Fact` from fact.go. -/
structure Fact where
  Value : Option ValueNode
  Path : String
  CalculationMethod : Option CalcOutcome
  Cached : Bool
  Priority : Int
  Dynamic : Bool
deriving Repr

/-- `NewFact` from fact.go: static fact with defaults
`{Cache: true, Priority: 1}` when no options are given.  (The Go version
returns an error value that is always `nil`.) -/
def NewFact (path : String) (value : ValueNode) (options : Option FactOptions) : Fact :=
  let opts := options.getD { Cache := true, Priority := 1 }
  { Value := some value, Priority := opts.Priority, Cached := opts.Cache,
    Dynamic := false, Path := path, CalculationMethod := none }

/-- `NewCalculatedFact` from fact.go: dynamic fact with the same
defaults; no stored value until calculated. -/
def NewCalculatedFact (path : String) (method : CalcOutcome)
    (options : Option FactOptions) : Fact :=
  let opts := options.getD { Cache := true, Priority := 1 }
  { Value := none, Priority := opts.Priority, Cached := opts.Cache,
    Path := path, CalculationMethod := some method, Dynamic := true }

/-- `(f *Fact) Calculate(almanac)` from fact.go: a dynamic fact stores
`f.CalculationMethod(...)` into `f.Value`; a static fact is returned
unchanged.  A `nil` method or a panicking callback aborts with a panic. -/
def Fact.Calculate (f : Fact) : Except String Fact :=
  if f.Dynamic then
    match f.CalculationMethod with
    | none => .error "runtime error: invalid memory address or nil pointer dereference"
    | some (.panics msg) => .error msg
    | some (.returns v) => .ok { f with Value := some v }
  else .ok f

/-! ## Events, almanac -/

/-- `Event` from shared_types.go (`Params` values are JSON data; the Go
field `Type` is spelled `ty` because `Type` is reserved in Lean). -/
structure Event where
  ty : String
  Params : List (String × ValueNode)
deriving Repr

/-- `EventOutcome` constants from src/almanac.go. -/
inductive EventOutcome where
  | success
  | failure
deriving DecidableEq, Repr

/-- `Condition` from src/rulesengine/condition.go.  Field names follow the
Go struct: `Priority *int`, `Name`, `Operator`, `Value ValueNode`,
`Fact`, `Condition` (the named-condition reference, here `condRef`),
`All`/`Any` (`nil` slice modelled as `none`, empty non-nil slice as
`some []`) and `Not`.  The post-evaluation write-back fields
(`FactResult`, `Result`) live on a per-run snapshot and do not influence
any evaluation result; they are not modelled. -/
inductive ConditionRec where
  | mk (priority : Option Int) (name operator : String) (value : ValueNode)
      (fact : String) (condRef : String)
      (allC : Option (List ConditionRec)) (anyC : Option (List ConditionRec))
      (notC : Option ConditionRec)

/-- Field `Priority` of `Condition`. -/
def ConditionRec.priority : ConditionRec → Option Int
  | .mk p _ _ _ _ _ _ _ _ => p

/-- Field `Name` of `Condition`. -/
def ConditionRec.name : ConditionRec → String
  | .mk _ n _ _ _ _ _ _ _ => n

/-- Field `Operator` of `Condition`. -/
def ConditionRec.operator : ConditionRec → String
  | .mk _ _ o _ _ _ _ _ _ => o

/-- Field `Value` of `Condition`. -/
def ConditionRec.value : ConditionRec → ValueNode
  | .mk _ _ _ v _ _ _ _ _ => v

/-- Field `Fact` of `Condition`. -/
def ConditionRec.fact : ConditionRec → String
  | .mk _ _ _ _ f _ _ _ _ => f

/-- Field `Condition` (named-condition reference) of `Condition`. -/
def ConditionRec.condRef : ConditionRec → String
  | .mk _ _ _ _ _ r _ _ _ => r

/-- Field `All` of `Condition` (`none` = nil slice). -/
def ConditionRec.allC : ConditionRec → Option (List ConditionRec)
  | .mk _ _ _ _ _ _ a _ _ => a

/-- Field `Any` of `Condition` (`none` = nil slice). -/
def ConditionRec.anyC : ConditionRec → Option (List ConditionRec)
  | .mk _ _ _ _ _ _ _ a _ => a

/-- Field `Not` of `Condition`. -/
def ConditionRec.notC : ConditionRec → Option ConditionRec
  | .mk _ _ _ _ _ _ _ _ n => n

/-- The method `(c *Condition) booleanOperator()` from condition.go:
nil-ness of `All`, then `Any`, then `Not` picks the name. -/
def ConditionRec.booleanOperator (c : ConditionRec) : String :=
  if c.allC.isSome then "all"
  else if c.anyC.isSome then "any"
  else if c.notC.isSome then "not"
  else ""

/-- `(c *Condition) IsBooleanOperator()` from condition.go. -/
def ConditionRec.IsBooleanOperator (c : ConditionRec) : Bool :=
  c.booleanOperator != ""

/-- `(c *Condition) IsConditionReference()` from condition.go (the
reflection lookup of the `Condition` field always succeeds). -/
def ConditionRec.IsConditionReference (c : ConditionRec) : Bool :=
  c.condRef != ""

/-- `(c *Condition) Validate()` from condition.go, including its notion of
`valueExists`. -/
def ConditionRec.Validate (c : ConditionRec) : Except String Unit :=
  if (match c.priority with | some p => decide (p ≤ 0) | none => false) then
    .error "priority must be greater than zero"
  else
    let valueExists :=
      c.value.ty != .null || (c.value.ty != .string && c.value.str != "")
    if (valueExists || c.operator != "" || c.fact != "") &&
       (!valueExists || c.operator == "" || c.fact == "") then
      .error "if value, operator, or fact are set, all three must be provided"
    else if ((c.anyC.getD []).length > 0 || (c.allC.getD []).length > 0 ||
             c.notC.isSome) &&
            (valueExists || c.operator != "" || c.fact != "") then
      .error "value, operator, and fact must not be set if any, all, or not conditions are provided"
    else .ok ()

/-- `RuleResult` from src/rule_result.go (`Result` is a tri-state
`*bool`). -/
structure RuleResultRec where
  Conditions : ConditionRec
  Event : Event
  Priority : Int
  Name : String
  Result : Option Bool

/-- `Almanac` from src/almanac.go (the ValueNode-based almanac):
fact map, per-outcome event log, rule results, parsed raw facts.
(`ruleResultsCapacity` only tunes slice growth and is not modelled.) -/
structure Almanac where
  factMap : List (String × Fact)
  allowUndefinedFacts : Bool
  successEvents : List Event
  failureEvents : List Event
  ruleResults : List RuleResultRec
  rawFacts : GjsonValue

/-- `NewAlmanac` from src/almanac.go (the `AllowUndefinedFacts` option
pointer defaults to false when absent). -/
def NewAlmanac (rf : GjsonValue) (allowUndefinedFacts : Option Bool) : Almanac :=
  { factMap := [], allowUndefinedFacts := allowUndefinedFacts.getD false,
    successEvents := [], failureEvents := [], ruleResults := [], rawFacts := rf }

/-- `(a *Almanac) AddEvent(event, outcome)` from src/almanac.go (the
invalid-outcome branch is unreachable for the two-valued model). -/
def Almanac.AddEvent (a : Almanac) (event : Event) (outcome : EventOutcome) : Almanac :=
  match outcome with
  | .success => { a with successEvents := a.successEvents ++ [event] }
  | .failure => { a with failureEvents := a.failureEvents ++ [event] }

/-- `(a *Almanac) AddResult(ruleResult)` from src/almanac.go (the capacity
doubling only affects allocation). -/
def Almanac.AddResult (a : Almanac) (rr : RuleResultRec) : Almanac :=
  { a with ruleResults := a.ruleResults ++ [rr] }

/-- `(a *Almanac) AddFact(key, value)` from src/almanac.go
(`factMap.Set` keyed by the path string; hashing is an optimization). -/
def Almanac.AddFact (a : Almanac) (key : String) (value : Fact) : Almanac :=
  { a with factMap := setAssoc a.factMap key value }

/-- `(a *Almanac) FactValue(path)` from src/almanac.go:
1. a cached fact in `factMap` is returned as is;
2. otherwise the raw facts JSON is consulted; a missing path yields
   `(nil, nil)` under `allowUndefinedFacts` and the error
   `undefined fact: <path>` otherwise;
3. a found node is wrapped by `NewValueFromGjson`, stored as a new fact
   in the cache, and returned.
The pair also carries the (possibly) updated almanac, standing for the
mutation of `a.factMap`. -/
def Almanac.FactValue (a : Almanac) (path : String) :
    Except String (Option Fact × Almanac) :=
  match lookupAssoc a.factMap path with
  | some f => .ok (some f, a)
  | none =>
    match gjsonGet a.rawFacts path with
    | none =>
      if a.allowUndefinedFacts then .ok (none, a)
      else .error ("undefined fact: " ++ path)
    | some result =>
      let vn := NewValueFromGjson result
      let nf := NewFact path vn none
      .ok (some nf, a.AddFact path nf)

/-- `(a *Almanac) GetValue(path)` from src/almanac.go: any error or
missing value collapses to `nil`; otherwise the payload of the fact is
returned raw.  Modelled as the resolved `ValueNode` (`none` = `nil`). -/
def Almanac.GetValue (a : Almanac) (path : String) : Option ValueNode × Almanac :=
  match a.FactValue path with
  | .error _ => (none, a)
  | .ok (none, a') => (none, a')
  | .ok (some f, a') =>
    match f.Value with
    | none => (none, a')
    | some v => (some v, a')

/-- `EvaluationResult` from shared_types.go (`LeftHandSideValue` is the
zero `Fact` when the almanac returned `nil`). -/
structure EvaluationResult where
  Result : Bool
  LeftHandSideValue : Option Fact
  RightHandSideValue : ValueNode
  Operator : String

/-- `(c *Condition) Evaluate(almanac, operatorMap)` from
src/rulesengine/condition.go: boolean nodes are rejected; an unknown
operator is an error; the fact is resolved through
`Almanac.FactValue`, whose error aborts the evaluation; when the
left-hand side or its value is `nil`, `result` keeps its zero value
`false`; otherwise `op.Evaluate(lhs.Value, &rhs)` decides. -/
def ConditionRec.Evaluate (c : ConditionRec) (a : Almanac)
    (operatorMap : List (String × Operator)) :
    Except String (EvaluationResult × Almanac) :=
  if c.IsBooleanOperator then .error "Cannot evaluate() a boolean condition"
  else
    match lookupAssoc operatorMap c.operator with
    | none => .error ("Unknown operator: " ++ c.operator)
    | some op =>
      let rightHandSideValue := c.value
      match a.FactValue c.fact with
      | .error e => .error e
      | .ok (leftHandSideValue, a') =>
        let result :=
          match leftHandSideValue with
          | some f =>
            match f.Value with
            | some v => op.Evaluate v rightHandSideValue
            | none => false
          | none => false
        .ok ({ Result := result, LeftHandSideValue := leftHandSideValue,
               RightHandSideValue := rightHandSideValue,
               Operator := c.operator }, a')

/-! ## Engine state, rules, execution context -/

/-- Status constants from shared_types.go. -/
def READY : String := "READY"

/-- Status constant `RUNNING` from shared_types.go. -/
def RUNNING : String := "RUNNING"

/-- Status constant `FINISHED` from shared_types.go. -/
def FINISHED : String := "FINISHED"

/-- `Rule` from part_001 (the `Engine` back-reference is passed explicitly
to the evaluation functions; `bus`/`mu` are runtime plumbing). -/
structure Rule where
  Priority : Int
  Name : String
  Conditions : ConditionRec
  RuleEvent : Event

/-- `Engine` from shared_types.go (the `prioritizedRules` cache, event
bus and mutex are not modelled; `PrioritizeRules` is computed directly). -/
structure Engine where
  Rules : List Rule
  AllowUndefinedFacts : Bool
  AllowUndefinedConditions : Bool
  ReplaceFactsInEventParams : Bool
  Operators : List (String × Operator)
  Facts : List (String × Fact)
  Conditions : List (String × ConditionRec)
  Status : String

/-- `AddOperator` map update from engine.go: `e.Operators[op.Name] = op`. -/
def AddOperator (ops : List (String × Operator)) (op : Operator) :
    List (String × Operator) :=
  setAssoc ops op.Name op

/-- The operator map a fresh engine gets from `NewEngine`, which registers
every operator of `DefaultOperators()` via `AddOperator`. -/
def defaultOperatorMap : List (String × Operator) :=
  DefaultOperators.foldl (fun m o => AddOperator m o) []

/-- `ExecutionContext` from part_015: the `StopEarly` flag, diagnostic
message and the cancellable context (`cancelled` models
`ctx.Cancel()` having been called / `ctx.Done()` being closed). -/
structure ExecutionContext where
  StopEarly : Bool
  Message : String
  cancelled : Bool

/-- A fresh per-run context (`NewEvaluationContext` / the literal in
`runInternal`). -/
def newExecutionContext : ExecutionContext :=
  { StopEarly := false, Message := "", cancelled := false }

/-- `getPriority(cond, facts)` from part_001: the leaf priority if set,
else the priority of the registered fact at `cond.Fact`, else 0. -/
def getPriority (cond : ConditionRec) (facts : List (String × Fact)) : Int :=
  match cond.priority with
  | some p => p
  | none =>
    match lookupAssoc facts cond.fact with
    | some f => f.Priority
    | none => 0

/-- Insert into a descending-sorted list of keys. -/
def insertDesc (x : Int) : List Int → List Int
  | [] => [x]
  | y :: ys => if y ≤ x then x :: y :: ys else y :: insertDesc x ys

/-- `sort.Sort(sort.Reverse(sort.IntSlice(keys)))`: keys in descending
order (the keys are distinct, so stability is irrelevant). -/
def sortDesc : List Int → List Int
  | [] => []
  | x :: xs => insertDesc x (sortDesc xs)

/-- `prioritizeConditions` from part_001: group the conditions by
`getPriority`, keys sorted descending; within a tier the original order
is preserved (Go appends in iteration order). -/
def prioritizeConditions (facts : List (String × Fact))
    (conditions : List ConditionRec) : List (List ConditionRec) :=
  let keys := sortDesc (conditions.map (fun c => getPriority c facts)).dedup
  keys.map (fun k => conditions.filter (fun c => getPriority c facts == k))

/-- The `method` closure for `"all"` in `prioritizeAndRun`: the loop
`for _, result { if !result return false }; return true`. -/
def allMethod : List Bool → Bool
  | [] => true
  | r :: rs => if !r then false else allMethod rs

/-- The `method` closure for `"any"`: true on the first true result. -/
def anyMethod : List Bool → Bool
  | [] => false
  | r :: rs => if r then true else anyMethod rs

/-- The `method` closure for `"not"`: `!results[0]` (call sites always
pass a single result; `headD` stands for the index-0 access). -/
def notMethod (results : List Bool) : Bool := !(results.headD false)

/-- `earlyExitFunc` for `"all"`: exit as soon as a condition is false. -/
def allEarlyExitFunc (result : Bool) : Bool := !result

/-- `earlyExitFunc` for `"any"`: exit as soon as a condition is true. -/
def anyEarlyExitFunc (result : Bool) : Bool := result

/-- `earlyExitFunc` for `"not"`: no early exit. -/
def notEarlyExitFunc (_ : Bool) : Bool := false

/-! ## The recursive condition evaluator (part_001)

The goroutine fan-out inside `evaluateConditions` is modelled by the
sequential schedule in which each spawned goroutine runs to completion
in spawn order; `done` models the one-shot `done` channel, and a
goroutine that observes `done` or the cancelled context returns without
writing its slot, which therefore keeps the zero value `false`.

All functions consume one unit of fuel per call; the fuel only has to be
large enough (the Go functions recurse through the engine-level
named-condition store, which can loop). -/

mutual

/-- `realize` from part_001: resolve a named-condition reference from the
engine store; missing references yield false under
`AllowUndefinedConditions` and an error otherwise; a found condition is
evaluated in place. -/
def realize (fuel : Nat) (eng : Engine) (ctx : ExecutionContext) (a : Almanac)
    (conditionReference : ConditionRec) :
    ExecutionContext × Almanac × Except String Bool :=
  match fuel with
  | 0 => (ctx, a, .error "model: fuel exhausted")
  | fuel + 1 =>
    match lookupAssoc eng.Conditions conditionReference.condRef with
    | none =>
      if eng.AllowUndefinedConditions then (ctx, a, .ok false)
      else (ctx, a, .error ("no condition " ++ conditionReference.condRef ++ " exists"))
    | some cond => evaluateCondition fuel eng ctx a cond

/-- `evaluateCondition` from part_001: a reference is realized; otherwise
the `all` block, then the `any` block, then the `not` block run in
sequence with their early returns; a non-boolean node is a leaf and is
evaluated through `Condition.Evaluate`; a boolean node none of whose
blocks produced a return falls through to the current `result`
variable. -/
def evaluateCondition (fuel : Nat) (eng : Engine) (ctx : ExecutionContext)
    (a : Almanac) (cond : ConditionRec) :
    ExecutionContext × Almanac × Except String Bool :=
  match fuel with
  | 0 => (ctx, a, .error "model: fuel exhausted")
  | fuel + 1 =>
    if cond.IsConditionReference then realize fuel eng ctx a cond
    else
      let allStep : (ExecutionContext × Almanac × Except String Bool) ⊕
          (ExecutionContext × Almanac × Bool) :=
        match cond.allC with
        | some (c0 :: cs) =>
          let (ctx1, a1, r) := prioritizeAndRun fuel eng ctx a (c0 :: cs) "all"
          match r with
          | .error e =>
            .inl ({ ctx1 with
                      StopEarly := true
                      Message := "Stopping early due to all condition failure"
                      cancelled := true }, a1, Except.error e)
          | .ok res =>
            if !res then
              .inl ({ ctx1 with
                        StopEarly := true
                        Message := "Stopping early due to all condition failure"
                        cancelled := true }, a1, Except.ok res)
            else .inr (ctx1, a1, res)
        | _ => .inr (ctx, a, false)
      match allStep with
      | .inl out => out
      | .inr (ctx1, a1, result1) =>
        let anyStep : (ExecutionContext × Almanac × Except String Bool) ⊕
            (ExecutionContext × Almanac × Bool) :=
          match cond.anyC with
          | some (c0 :: cs) =>
            let (ctx2, a2, r) := prioritizeAndRun fuel eng ctx1 a1 (c0 :: cs) "any"
            match r with
            | .error e => .inl (ctx2, a2, Except.error e)
            | .ok res =>
              if res then
                .inl ({ ctx2 with
                          StopEarly := true
                          Message := "Stopping early due to any condition success"
                          cancelled := true }, a2, Except.ok res)
              else .inr (ctx2, a2, res)
          | _ => .inr (ctx1, a1, result1)
        match anyStep with
        | .inl out => out
        | .inr (ctx2, a2, result2) =>
          match cond.notC with
          | some nc =>
            let (ctx3, a3, r) := prioritizeAndRun fuel eng ctx2 a2 [nc] "not"
            match r with
            | .error e => (ctx3, a3, .error e)
            | .ok res => (ctx3, a3, .ok (!res))
          | none =>
            if !cond.IsBooleanOperator then
              match cond.Evaluate a2 eng.Operators with
              | .error e => (ctx2, a2, .error e)
              | .ok (er, a3) => (ctx2, a3, .ok er.Result)
            else (ctx2, a2, .ok result2)

/-- `prioritizeAndRun` from part_001: the empty list returns true; a
singleton is evaluated directly; otherwise the `method`/`earlyExitFunc`
pair is selected by `operator` (any other name is an error), the
conditions are grouped into descending priority tiers, and the tier loop
runs. -/
def prioritizeAndRun (fuel : Nat) (eng : Engine) (ctx : ExecutionContext)
    (a : Almanac) (conditions : List ConditionRec) (operator : String) :
    ExecutionContext × Almanac × Except String Bool :=
  match fuel with
  | 0 => (ctx, a, .error "model: fuel exhausted")
  | fuel + 1 =>
    match conditions with
    | [] => (ctx, a, .ok true)
    | [c] => evaluateCondition fuel eng ctx a c
    | _ =>
      match (match operator with
             | "all" => some (allMethod, allEarlyExitFunc)
             | "any" => some (anyMethod, anyEarlyExitFunc)
             | "not" => some (notMethod, notEarlyExitFunc)
             | _ => none) with
      | none => (ctx, a, .error "invalid operator")
      | some (method, earlyExitFunc) =>
        tierLoop fuel eng ctx a (prioritizeConditions eng.Facts conditions)
          method earlyExitFunc

/-- The `for _, set := range orderedSets` loop of `prioritizeAndRun`:
under `StopEarly` the whole call yields false; a tier error aborts; a
tier whose `method` aggregate is true returns true immediately;
otherwise the next tier runs; exhausting the tiers yields false. -/
def tierLoop (fuel : Nat) (eng : Engine) (ctx : ExecutionContext) (a : Almanac)
    (sets : List (List ConditionRec)) (method : List Bool → Bool)
    (earlyExitFunc : Bool → Bool) :
    ExecutionContext × Almanac × Except String Bool :=
  match fuel with
  | 0 => (ctx, a, .error "model: fuel exhausted")
  | fuel + 1 =>
    match sets with
    | [] => (ctx, a, .ok false)
    | set :: rest =>
      if ctx.StopEarly then (ctx, a, .ok false)
      else
        let (ctx1, a1, r) := evaluateConditions fuel eng ctx a set method earlyExitFunc
        match r with
        | .error e => (ctx1, a1, .error e)
        | .ok res =>
          if res then (ctx1, a1, .ok true)
          else tierLoop fuel eng ctx1 a1 rest method earlyExitFunc

/-- `evaluateConditions` from part_001: the empty set returns true;
otherwise the workers run (sequential schedule), a recorded error is
returned, and otherwise the aggregate `method` of the results vector. -/
def evaluateConditions (fuel : Nat) (eng : Engine) (ctx : ExecutionContext)
    (a : Almanac) (conditions : List ConditionRec) (method : List Bool → Bool)
    (earlyExitFunc : Bool → Bool) :
    ExecutionContext × Almanac × Except String Bool :=
  match fuel with
  | 0 => (ctx, a, .error "model: fuel exhausted")
  | fuel + 1 =>
    match conditions with
    | [] => (ctx, a, .ok true)
    | _ =>
      let (ctx1, a1, results, errv) :=
        condWorkers fuel eng ctx a conditions earlyExitFunc false none
      match errv with
      | some e => (ctx1, a1, .error e)
      | none => (ctx1, a1, .ok (method results))

/-- The goroutines of `evaluateConditions`, one per condition in spawn
order: a worker that sees the cancelled context or the closed `done`
channel returns and its slot keeps the zero value `false`; an evaluation
error records `err` and closes `done`; a result is written to its slot
and closes `done` when `earlyExitFunc` fires. -/
def condWorkers (fuel : Nat) (eng : Engine) (ctx : ExecutionContext) (a : Almanac)
    (conditions : List ConditionRec) (earlyExitFunc : Bool → Bool)
    (done : Bool) (errv : Option String) :
    ExecutionContext × Almanac × List Bool × Option String :=
  match fuel with
  | 0 => (ctx, a, [], some "model: fuel exhausted")
  | fuel + 1 =>
    match conditions with
    | [] => (ctx, a, [], errv)
    | c :: cs =>
      if ctx.cancelled || done then
        let (ctx1, a1, rs, errv1) := condWorkers fuel eng ctx a cs earlyExitFunc done errv
        (ctx1, a1, false :: rs, errv1)
      else
        match evaluateCondition fuel eng ctx a c with
        | (ctx1, a1, .error e) =>
          let (ctx2, a2, rs, errv1) :=
            condWorkers fuel eng ctx1 a1 cs earlyExitFunc true (some e)
          (ctx2, a2, false :: rs, errv1)
        | (ctx1, a1, .ok res) =>
          let (ctx2, a2, rs, errv1) :=
            condWorkers fuel eng ctx1 a1 cs earlyExitFunc (done || earlyExitFunc res) errv
          (ctx2, a2, res :: rs, errv1)

end

/-! ## Rule evaluation wrapper, engine run lifecycle -/

/-- The per-parameter goroutine of `ResolveEventParams`
(src/rule_result.go): an object-like value carrying a string `fact`
field is replaced by `almanac.GetValue(factPath)` (`nil` result stands
for JSON null); other values are untouched.  `GetValue` never returns a
non-nil error, so the error channel stays empty. -/
def resolveParamsLoop (a : Almanac) :
    List (String × ValueNode) → List (String × ValueNode) × Almanac
  | [] => ([], a)
  | (k, v) :: rest =>
    let step : ValueNode × Almanac :=
      if v.IsObject then
        match lookupAssoc v.obj "fact" with
        | some s =>
          if s.ty == .string then
            let (res, a') := a.GetValue s.str
            (res.getD nullValueNode, a')
          else (v, a)
        | none => (v, a)
      else (v, a)
    let (rest', a2) := resolveParamsLoop step.2 rest
    ((k, step.1) :: rest', a2)

/-- `(rr *RuleResult) ResolveEventParams(almanac)` from
src/rule_result.go. -/
def ResolveEventParams (rr : RuleResultRec) (a : Almanac) :
    RuleResultRec × Almanac :=
  let (params, a1) := resolveParamsLoop a rr.Event.Params
  ({ rr with Event := { rr.Event with Params := params } }, a1)

/-- `processResult` from part_001: store the final boolean in the rule
result, resolve event params when the engine option is on, and publish
on the per-rule bus (fire-and-forget, not modelled). -/
def processResult (eng : Engine) (ctx : ExecutionContext) (a : Almanac)
    (result : Bool) (rr : RuleResultRec) :
    ExecutionContext × Almanac × Except String RuleResultRec :=
  let rr1 := { rr with Result := some result }
  let step : RuleResultRec × Almanac :=
    if eng.ReplaceFactsInEventParams then ResolveEventParams rr1 a else (rr1, a)
  (ctx, step.2, .ok step.1)

/-- The `for operator, condition := range conditions` loop of
`Rule.Evaluate` (part_001): each present block is run through
`prioritizeAndRun`; an error aborts; the `result` variable keeps the
value of the last iteration.  Go iterates the map in unspecified order;
the model fixes the insertion order any, all, not (every claim below
uses rules with at most one block). -/
def ruleCondLoop (fuel : Nat) (eng : Engine) (ctx : ExecutionContext) (a : Almanac)
    (entries : List (String × List ConditionRec)) (result : Bool) :
    ExecutionContext × Almanac × Except String Bool :=
  match entries with
  | [] => (ctx, a, .ok result)
  | (operator, conds) :: rest =>
    let (ctx1, a1, r) := prioritizeAndRun fuel eng ctx a conds operator
    match r with
    | .error e => (ctx1, a1, .error e)
    | .ok res => ruleCondLoop fuel eng ctx1 a1 rest res

/-- `(r *Rule) Evaluate(ctx, almanac)` from part_001: build the rule
result snapshot, collect the present `any`/`all`/`not` blocks, fall back
to `realize` when none is present, and finish through
`processResult`. -/
def Rule.Evaluate (fuel : Nat) (eng : Engine) (ctx : ExecutionContext)
    (a : Almanac) (r : Rule) :
    ExecutionContext × Almanac × Except String RuleResultRec :=
  let ruleResult : RuleResultRec :=
    { Conditions := r.Conditions, Event := r.RuleEvent,
      Priority := r.Priority, Name := r.Name, Result := none }
  let entries : List (String × List ConditionRec) :=
    (match r.Conditions.anyC with
     | some l => if l.length > 0 then [("any", l)] else []
     | none => []) ++
    (match r.Conditions.allC with
     | some l => if l.length > 0 then [("all", l)] else []
     | none => []) ++
    (match r.Conditions.notC with
     | some c => [("not", [c])]
     | none => [])
  let step : ExecutionContext × Almanac × Except String Bool :=
    if r.Conditions.allC.isNone && r.Conditions.anyC.isNone &&
       r.Conditions.notC.isNone then
      realize fuel eng ctx a r.Conditions
    else ruleCondLoop fuel eng ctx a entries false
  match step with
  | (ctx1, a1, .error e) => (ctx1, a1, .error e)
  | (ctx1, a1, .ok result) => processResult eng ctx1 a1 result ruleResult

/-- `PrioritizeRules` from engine.go: group rules by priority, tiers in
descending priority order (the `prioritizedRules` cache only memoizes
this computation). -/
def Engine.PrioritizeRules (e : Engine) : List (List Rule) :=
  let keys := sortDesc (e.Rules.map (fun r => r.Priority)).dedup
  keys.map (fun k => e.Rules.filter (fun r => r.Priority == k))

/-- The goroutines of `EvaluateRules`, sequential schedule in spawn
order: the spawn loop stops at `StopEarly`; a spawned goroutine that
sees the cancelled context sends nothing; otherwise it sends either the
rule result or the error. -/
def rulesLoop (fuel : Nat) (eng : Engine) (ctx : ExecutionContext) (a : Almanac) :
    List Rule → ExecutionContext × Almanac × List (Except String RuleResultRec)
  | [] => (ctx, a, [])
  | r :: rest =>
    if ctx.StopEarly then (ctx, a, [])
    else if ctx.cancelled then
      rulesLoop fuel eng ctx a rest
    else
      let (ctx1, a1, out) := Rule.Evaluate fuel eng ctx a r
      let (ctx2, a2, outs) := rulesLoop fuel eng ctx1 a1 rest
      (ctx2, a2, out :: outs)

/-- The collector loop of `EvaluateRules`: each received rule result is
added to the almanac and its event logged (and published) under success
when `Result` is non-nil true, under failure otherwise. -/
def collectResults (a : Almanac) : List RuleResultRec → Almanac
  | [] => a
  | rr :: rest =>
    let a1 := a.AddResult rr
    let a2 :=
      if rr.Result.getD false then a1.AddEvent rr.Event .success
      else a1.AddEvent rr.Event .failure
    collectResults a2 rest

/-- `EvaluateRules` from engine.go: a non-running engine skips the set;
otherwise the rules fan out, results are collected, and the first
received error (checked after the results drain) is returned. -/
def Engine.EvaluateRules (fuel : Nat) (e : Engine) (rules : List Rule)
    (a : Almanac) (ctx : ExecutionContext) :
    ExecutionContext × Almanac × Option String :=
  if e.Status ≠ RUNNING then (ctx, a, none)
  else
    let (ctx1, a1, outs) := rulesLoop fuel e ctx a rules
    let oks := outs.filterMap (fun o => o.toOption)
    let errs := outs.filterMap
      (fun o => match o with | .error e => some e | .ok _ => none)
    (ctx1, collectResults a1 oks, errs.head?)

/-- The fact-seeding loop of `runInternal` (engine.go):
`e.Facts.Range(...)` forces `Calculate` on every dynamic fact and inserts
every fact into the almanac.  The returned `List String` logs, in order,
the paths whose `CalculationMethod` was invoked; a panicking callback
aborts the loop with the panic carrying the log so far. -/
def seedFacts (a : Almanac) (log : List String) :
    List (String × Fact) → Except (String × List String) (Almanac × List String)
  | [] => .ok (a, log)
  | (key, f) :: rest =>
    if f.Dynamic then
      match f.Calculate with
      | .error msg => .error (msg, log ++ [f.Path])
      | .ok f' => seedFacts (a.AddFact key f') (log ++ [f.Path]) rest
    else seedFacts (a.AddFact key f) log rest

/-- The map `runInternal` returns on success. -/
structure RunOutput where
  almanac : Almanac
  results : List RuleResultRec
  failureResults : List RuleResultRec
  events : List Event
  failureEvents : List Event

/-- What a call to `runInternal` leaves behind: the engine (with its
final `Status`), the output map and error as seen by the caller, and the
log of dynamic-fact callback invocations made during the run. -/
structure RunReturn where
  engine : Engine
  output : Option RunOutput
  err : Option String
  calcLog : List String

/-- The tier loop of `runInternal`: each prioritized set runs through
`EvaluateRules`; an error is an early `return nil, err`; `StopEarly`
breaks out of the loop. -/
def tierRun (fuel : Nat) (eng : Engine) (ctx : ExecutionContext) (a : Almanac) :
    List (List Rule) → ExecutionContext × Almanac × Option String
  | [] => (ctx, a, none)
  | set :: rest =>
    let (ctx1, a1, err) := eng.EvaluateRules fuel set a ctx
    match err with
    | some e => (ctx1, a1, some e)
    | none =>
      if ctx1.StopEarly then (ctx1, a1, none)
      else tierRun fuel eng ctx1 a1 rest

/-- `runInternal` from engine.go.  The result parameters of the Go function
are unnamed, and its deferred
`if r := recover(); r != nil { err = fmt.Errorf(...) }` assigns to a
local variable, which by the Go spec cannot change the returned values:
a recovered panic therefore makes the call return the zero values
`(nil, nil)`, and `e.Status`, set to `RUNNING` at entry, is never reset.
The early `return nil, err` taken when a tier reports an error is a
normal return that also skips `e.Status = FINISHED`. -/
def Engine.runInternal (fuel : Nat) (e : Engine) (facts : GjsonValue) : RunReturn :=
  let e1 := { e with Status := RUNNING }
  let a0 := NewAlmanac facts (some e1.AllowUndefinedFacts)
  match seedFacts a0 [] e1.Facts with
  | .error (_, log) =>
    { engine := e1, output := none, err := none, calcLog := log }
  | .ok (a1, log) =>
    match tierRun fuel e1 newExecutionContext a1 e1.PrioritizeRules with
    | (_, _, some err) =>
      { engine := e1, output := none, err := some err, calcLog := log }
    | (_, a2, none) =>
      let e2 := { e1 with Status := FINISHED }
      let results := a2.ruleResults.filter (fun rr => rr.Result.getD false)
      let failureResults := a2.ruleResults.filter (fun rr => !(rr.Result.getD false))
      { engine := e2
        output := some { almanac := a2, results := results,
                         failureResults := failureResults,
                         events := a2.successEvents,
                         failureEvents := a2.failureEvents }
        err := none
        calcLog := log }

/-! ## Rule construction and `AddRuleFromMap` -/

/-- `EventConfig` from part_001 (`Type` spelled `ty`). -/
structure EventConfig where
  ty : String
  Params : Option (List (String × ValueNode))

/-- `RuleConfig` from shared_types.go.  The `OnSuccess`/`OnFailure`
callbacks are external handlers whose subscription cannot fail; they are
not modelled. -/
structure RuleConfig where
  Name : String
  Priority : Option Int
  Conditions : ConditionRec
  Event : EventConfig

/-- `(r *Rule) setEvent(event)` from part_001. -/
def Rule.setEvent (r : Rule) (event : EventConfig) : Rule :=
  { r with RuleEvent := { ty := event.ty, Params := event.Params.getD [] } }

/-- `NewRule(config)` from part_001: validate the conditions, apply the
priority (`<= 0` is an error), then require a nonempty event type; on any
failure the Go function returns `(nil, error)`. -/
def NewRule (config : RuleConfig) : Except String Rule :=
  match config.Conditions.Validate with
  | .error e => .error e
  | .ok _ =>
    let rule : Rule :=
      { Name := config.Name, Priority := 1, Conditions := config.Conditions,
        RuleEvent := { ty := "unknown", Params := [] } }
    let priorityStep : Except String Rule :=
      match config.Priority with
      | some p =>
        if p ≤ 0 then .error "priority must be greater than zero"
        else .ok { rule with Priority := p }
      | none => .ok rule
    match priorityStep with
    | .error e => .error e
    | .ok rule1 =>
      if config.Event.ty ≠ "" then .ok (rule1.setEvent config.Event)
      else .error "invalid event config Type must be provided"

/-- The observable outcome of calling a Go function that may panic. -/
inductive GoFun (α : Type) where
  | ok (val : α)
  | panicked (msg : String)

/-- `(e *Engine) AddRuleFromMap(rp)` from engine.go: a nil config is an
error; otherwise `r, _ := NewRule(rp)` discards the error, and
`r.SetEngine(e)` dereferences `r` — when `NewRule` failed, `r` is nil
and the call panics with a nil-pointer dereference. -/
def Engine.AddRuleFromMap (e : Engine) (rp : Option RuleConfig) :
    GoFun (Engine × Option String) :=
  match rp with
  | none => .ok (e, some "engine: AddRuleFromMap invalid configuration")
  | some cfg =>
    match NewRule cfg with
    | .error _ =>
      .panicked "runtime error: invalid memory address or nil pointer dereference"
    | .ok r => .ok ({ e with Rules := e.Rules ++ [r] }, none)

/-! ## Spec-side definitions and statement-level predicates -/

/-- The element loop of the array-contains semantics. -/
def specContainsLoop (b : ValueNode) : List ValueNode → Bool
  | [] => false
  | x :: xs => if EvalEqual x b then true else specContainsLoop b xs

/-- Modelled from the spec: the documented `contains` operator,
"array-contains | `contains` | a is array; b equals any element"
(§4.2 operator table).  Compared against the registered `contains`
operator, whose callback in the source is `EvalIn`. -/
def specContains (a b : ValueNode) : Bool :=
  a.IsArray && specContainsLoop b a.arr

mutual

/-- Values whose tag (hereditarily) is bool, number, string or array:
the tags for which the `switch` in `EvalEqual` has a case. -/
def comparableTagged : ValueNode → Bool
  | .mk .bool _ _ _ _ _ => true
  | .mk .number _ _ _ _ _ => true
  | .mk .string _ _ _ _ _ => true
  | .mk .array _ _ _ arr _ => comparableList arr
  | .mk _ _ _ _ _ _ => false

/-- `comparableTagged` on every element of a list. -/
def comparableList : List ValueNode → Bool
  | [] => true
  | x :: xs => comparableTagged x && comparableList xs

end

/-- A fact whose `Calculate` cannot panic: it is static, or its callback
returns a value. -/
def calculatesCleanly (f : Fact) : Bool :=
  !f.Dynamic ||
    (match f.CalculationMethod with
     | some (.returns _) => true
     | _ => false)

/-! ## Concrete fixtures -/

/-- A fresh engine as `NewEngine(nil, nil)` builds it: default options,
the default operator map, no rules, facts or named conditions. -/
def baseEngine : Engine :=
  { Rules := [], AllowUndefinedFacts := false, AllowUndefinedConditions := false,
    ReplaceFactsInEventParams := false, Operators := defaultOperatorMap,
    Facts := [], Conditions := [], Status := READY }

/-- Facts JSON `{"a": 1, "b": 2}`. -/
def almAB : Almanac := NewAlmanac (.jsonObject [("a", .number 1), ("b", .number 2)]) (some false)

/-- Leaf `{fact: "a", operator: "equal", value: 1, priority: 2}` — true on
`almAB`. -/
def leafGate : ConditionRec := .mk (some 2) "" "equal" (numNode 1) "a" "" none none none

/-- Leaf `{fact: "b", operator: "equal", value: 1, priority: 1}` — false on
`almAB`. -/
def leafDeep : ConditionRec := .mk (some 1) "" "equal" (numNode 1) "b" "" none none none

/-- The boolean node `{all: [leafGate, leafDeep]}`: two children in two
distinct priority tiers. -/
def allNodeMixed : ConditionRec :=
  .mk none "" "" nullValueNode "" "" (some [leafGate, leafDeep]) none none

/-- A dynamic fact whose callback panics. -/
def panicFact : Fact := NewCalculatedFact "boom" (.panics "kaboom") none

/-- An engine holding only the panicking dynamic fact. -/
def engPanic : Engine := { baseEngine with Facts := [("boom", panicFact)] }

/-- A cached dynamic fact returning the number 50 (the spec scenario
`personalFoulLimit`). -/
def dynScoreFact : Fact := NewCalculatedFact "score" (.returns (numNode 50)) none

/-- An engine holding the dynamic fact and no rules at all, so no
condition can reference the fact during the run. -/
def engDynNoRules : Engine := { baseEngine with Facts := [("score", dynScoreFact)] }

/-- An engine holding one static and one dynamic fact. -/
def engMixedFacts : Engine :=
  { baseEngine with
      Facts := [("limit", NewFact "limit" (numNode 3) none), ("score", dynScoreFact)] }

/-- Empty facts JSON. -/
def almEmpty : Almanac := NewAlmanac (.jsonObject []) (some false)

/-- Empty facts JSON with `allow_undefined_facts` on. -/
def almEmptyAllow : Almanac := NewAlmanac (.jsonObject []) (some true)

/-- Leaf `{fact: "score", operator: "equal", value: 1}` over a facts
document that does not define `score`. -/
def leafMissing : ConditionRec := .mk none "" "equal" (numNode 1) "score" "" none none none

/-- A rule configuration whose event type is empty (structurally valid
conditions): `NewRule` rejects it. -/
def badRuleConfig : RuleConfig :=
  { Name := "r", Priority := none,
    Conditions := .mk none "" "" nullValueNode "" "" (some []) none none,
    Event := { ty := "", Params := none } }

/-! ## Claim theorems -/

/-- C1 (evidence): on the `all` node `{all: [c₁ @priority 2, c₂ @priority 1]}`
with `c₁` evaluating true and `c₂` evaluating false, the evaluator
returns true: the tier loop in `prioritizeAndRun` returns true as soon
as a tier aggregate is true (`if result { return true, nil }`), so the
true higher-priority tier decides the node without the false child ever
being consulted — the node result is not the conjunction of its
children. -/
theorem c1_all_node_short_circuits_true :
    (evaluateCondition 10 baseEngine newExecutionContext almAB leafGate).2.2 = .ok true ∧
    (evaluateCondition 10 baseEngine newExecutionContext almAB leafDeep).2.2 = .ok false ∧
    (evaluateCondition 10 baseEngine newExecutionContext almAB allNodeMixed).2.2 = .ok true :=
  ⟨rfl, rfl, rfl⟩

/-- C2: when the fact-seeding phase of `runInternal` panics (here: a
dynamic-fact callback), the deferred recover swallows the panic, but the
result parameters are unnamed, so the caller receives the zero values —
a nil output map AND a nil error — and `e.Status`, set to `RUNNING` at
entry, is never restored. -/
theorem c2_run_swallows_panic (e : Engine) (facts : GjsonValue) (fuel : Nat)
    (msg : String) (log : List String)
    (h : seedFacts (NewAlmanac facts (some e.AllowUndefinedFacts)) [] e.Facts =
      .error (msg, log)) :
    Engine.runInternal fuel e facts =
      { engine := { e with Status := RUNNING }, output := none, err := none,
        calcLog := log } := by
  simp [Engine.runInternal, h]

/-- Witness for `c2_run_swallows_panic` at the engine holding one
panicking dynamic fact. -/
theorem c2_run_swallows_panic_witness :
    Engine.runInternal 5 engPanic (.jsonObject []) =
      { engine := { engPanic with Status := RUNNING }, output := none, err := none,
        calcLog := ["boom"] } :=
  c2_run_swallows_panic engPanic (.jsonObject []) 5 "kaboom" ["boom"] rfl

/-- C4 (counterexample): the equality used by the `equal` operator is not
reflexive — `null eq null` is false, because the `switch` in `EvalEqual`
has no `Null` case and falls into `default: return false`. -/
theorem c4_null_eq_null_false : EvalEqual nullValueNode nullValueNode = false := rfl

mutual

/-- Reflexivity of `EvalEqual` on values whose tags all lie in
bool/number/string/array. -/
theorem evalEqual_refl_of_comparable :
    ∀ (x : ValueNode), comparableTagged x = true → EvalEqual x x = true
  | .mk t b n s arr o, h => by
    cases t with
    | bool => simp [EvalEqual]
    | number => simp [EvalEqual]
    | string => simp [EvalEqual]
    | array =>
      have harr : comparableList arr = true := by
        simpa [comparableTagged] using h
      simp [EvalEqual, evalEqualArrays_refl_of_comparable arr harr]
    | null => simp [comparableTagged] at h
    | object => simp [comparableTagged] at h

/-- Reflexivity of the array loop of `EvalEqual`. -/
theorem evalEqualArrays_refl_of_comparable :
    ∀ (l : List ValueNode), comparableList l = true → evalEqualArrays l l = true
  | [], _ => rfl
  | x :: xs, h => by
    have hx : comparableTagged x = true := by
      have := h; simp [comparableList] at this; exact this.1
    have hxs : comparableList xs = true := by
      have := h; simp [comparableList] at this; exact this.2
    simp [evalEqualArrays, evalEqual_refl_of_comparable x hx,
          evalEqualArrays_refl_of_comparable xs hxs]

end

/-- C4 (amended): `EvalEqual` is type-strict — values of different tags
are never equal, with no coercion — and it is reflexive exactly on
values built from the bool, number, string and array tags; values tagged
null or object (the tags missing from the `switch`) equal nothing, not
even themselves. -/
theorem c4_equal_strict_and_refl :
    (∀ a b : ValueNode, a.SameType b = false → EvalEqual a b = false) ∧
    (∀ x : ValueNode, comparableTagged x = true → EvalEqual x x = true) ∧
    (∀ x : ValueNode, x.ty = .null ∨ x.ty = .object → EvalEqual x x = false) := by
  refine ⟨?_, evalEqual_refl_of_comparable, ?_⟩
  · rintro ⟨ta, ba, na, sa, ara, oa⟩ ⟨tb, bb, nb, sb, arb, ob⟩ h
    simp only [ValueNode.SameType, ValueNode.ty] at h
    simp [EvalEqual, bne, h]
  · rintro ⟨t, b, n, s, arr, o⟩ h
    simp only [ValueNode.ty] at h
    rcases h with rfl | rfl <;> rfl

/-- Witness for `c4_equal_strict_and_refl`: `number 1` differs from
`string "1"` (type-strictness, no coercion) and `number 1` equals
itself. -/
theorem c4_equal_strict_and_refl_witness :
    EvalEqual (numNode 1) (strNode "1") = false ∧
    EvalEqual (numNode 1) (numNode 1) = true ∧
    EvalEqual nullValueNode nullValueNode = false :=
  ⟨c4_equal_strict_and_refl.1 (numNode 1) (strNode "1") rfl,
   c4_equal_strict_and_refl.2.1 (numNode 1) rfl,
   c4_equal_strict_and_refl.2.2 nullValueNode (Or.inl rfl)⟩

/-- C5 (evidence): the registered `contains` operator does not implement
the documented array-contains semantics; its callback is `EvalIn`, so it
coincides pointwise with the `in` operator and returns false on
`a = [1], b = 1`, where the documented semantics returns true. -/
theorem c5_contains_divergence :
    specContains (arrNode [numNode 1]) (numNode 1) = true ∧
    containsOperator.Evaluate (arrNode [numNode 1]) (numNode 1) = false ∧
    (∀ a b : ValueNode, containsOperator.Evaluate a b = inOperator.Evaluate a b) :=
  ⟨rfl, rfl, fun _ _ => rfl⟩

/-- C7 (counterexample): `prioritizeAndRun` on an empty child list
returns true for an `any` node (the claim says false): the
`len(conditions) == 0` check returns true before the operator is even
inspected. -/
theorem c7_empty_any_true :
    prioritizeAndRun 1 baseEngine newExecutionContext almEmpty [] "any" =
      (newExecutionContext, almEmpty, .ok true) := rfl

/-- C7 (amended): `prioritizeAndRun` on an empty child list returns true
regardless of the operator — for `all` and for `any` alike (and for any
other operator string). -/
theorem c7_empty_children_true :
    ∀ (n : Nat) (eng : Engine) (ctx : ExecutionContext) (a : Almanac) (op : String),
      prioritizeAndRun (n + 1) eng ctx a [] op = (ctx, a, .ok true) :=
  fun _ _ _ _ _ => rfl

/-- C8 (counterexample): `notIn` is not the pointwise negation of `in`:
on a non-array fact value (number 1) both return false, because both
share the `isArray` fact-value validator and `Operator.Evaluate` returns
false whenever the validator rejects. -/
theorem c8_notIn_not_negation :
    notInOperator.Evaluate (numNode 1) (arrNode []) ≠
      !(inOperator.Evaluate (numNode 1) (arrNode [])) := by decide

/-- C8 (amended): `notEqual` is the pointwise negation of `equal` on all
inputs; `notIn` and `doesNotContain` negate `in` and `contains` exactly
on the inputs whose fact value passes the shared `isArray` validator;
when the fact value is not a (non-null) array, the positive and the
negated operator both return false. -/
theorem c8_negation_pairs :
    (∀ a b : ValueNode, notEqualOperator.Evaluate a b = !(equalOperator.Evaluate a b)) ∧
    (∀ a b : ValueNode, isArray a = true →
       notInOperator.Evaluate a b = !(inOperator.Evaluate a b) ∧
       doesNotContainOperator.Evaluate a b = !(containsOperator.Evaluate a b)) ∧
    (∀ a b : ValueNode, isArray a = false →
       inOperator.Evaluate a b = false ∧ notInOperator.Evaluate a b = false ∧
       containsOperator.Evaluate a b = false ∧
       doesNotContainOperator.Evaluate a b = false) := by
  refine ⟨?_, ?_, ?_⟩
  · intro a b
    simp [Operator.Evaluate, notEqualOperator, equalOperator, regOp, NewOperator,
          EvalNotEquals]
  · intro a b h
    constructor <;>
      simp [Operator.Evaluate, notInOperator, inOperator, doesNotContainOperator,
            containsOperator, regOp, NewOperator, EvalNotIn, h]
  · intro a b h
    refine ⟨?_, ?_, ?_, ?_⟩ <;>
      simp [Operator.Evaluate, notInOperator, inOperator, doesNotContainOperator,
            containsOperator, regOp, NewOperator, EvalNotIn, h]

/-- Witness for `c8_negation_pairs` at concrete inputs: fact value `[]`
(passes the validator) and fact value `1` (fails it). -/
theorem c8_negation_pairs_witness :
    notEqualOperator.Evaluate (numNode 1) (numNode 2) =
      !(equalOperator.Evaluate (numNode 1) (numNode 2)) ∧
    notInOperator.Evaluate (arrNode []) (arrNode [numNode 1]) =
      !(inOperator.Evaluate (arrNode []) (arrNode [numNode 1])) ∧
    inOperator.Evaluate (numNode 3) (arrNode []) = false :=
  ⟨c8_negation_pairs.1 (numNode 1) (numNode 2),
   (c8_negation_pairs.2.1 (arrNode []) (arrNode [numNode 1]) rfl).1,
   (c8_negation_pairs.2.2 (numNode 3) (arrNode []) rfl).1⟩

/-- C9: resolving a fact from the raw facts JSON can never produce an
object-tagged `ValueNode` — `NewValueFromGjson` maps a JSON object (any
non-array `gjson.JSON` node) to the null `ValueNode` — and a leaf
equality comparison whose left-hand side came from a JSON object is
always false, whatever the right-hand side (object literal included),
because `EvalEqual` returns false on every null-tagged operand. -/
theorem c9_json_objects_resolve_to_null :
    (∀ r : GjsonValue, (NewValueFromGjson r).IsObject = false) ∧
    (∀ fields : List (String × GjsonValue),
       NewValueFromGjson (GjsonValue.jsonObject fields) = nullValueNode) ∧
    (∀ (fields : List (String × GjsonValue)) (rhs : ValueNode),
       EvalEqual (NewValueFromGjson (GjsonValue.jsonObject fields)) rhs = false) := by
  refine ⟨?_, fun _ => rfl, ?_⟩
  · intro r; cases r <;> rfl
  · intro fields rhs
    show EvalEqual nullValueNode rhs = false
    rcases rhs with ⟨tb, bb, nb, sb, arb, ob⟩
    cases tb <;> rfl

/-- C3: for a fact path that is neither in the fact map nor in the raw
facts JSON: with `allow_undefined_facts` on, `FactValue` returns
`(nil, nil)` without error and a leaf referencing the path evaluates to
false, without error, through `Condition.Evaluate` and through the rule
evaluator leaf case; with the option off, `FactValue` fails with
`undefined fact: <path>`, and that error aborts the leaf evaluation and
propagates out of the rule evaluator. -/
theorem c3_undefined_fact
    (a : Almanac) (p : String) (ops : List (String × Operator)) (op : Operator)
    (c : ConditionRec)
    (hmap : lookupAssoc a.factMap p = none)
    (hraw : gjsonGet a.rawFacts p = none)
    (hfact : c.fact = p)
    (hcr : c.condRef = "")
    (hall : c.allC = none) (hany : c.anyC = none) (hnot : c.notC = none)
    (hop : lookupAssoc ops c.operator = some op) :
    (a.allowUndefinedFacts = true →
      a.FactValue p = .ok (none, a) ∧
      c.Evaluate a ops =
        .ok ({ Result := false, LeftHandSideValue := none,
               RightHandSideValue := c.value, Operator := c.operator }, a) ∧
      ∀ (n : Nat) (eng : Engine) (ctx : ExecutionContext),
        eng.Operators = ops →
        evaluateCondition (n + 1) eng ctx a c = (ctx, a, .ok false)) ∧
    (a.allowUndefinedFacts = false →
      a.FactValue p = .error ("undefined fact: " ++ p) ∧
      c.Evaluate a ops = .error ("undefined fact: " ++ p) ∧
      ∀ (n : Nat) (eng : Engine) (ctx : ExecutionContext),
        eng.Operators = ops →
        evaluateCondition (n + 1) eng ctx a c =
          (ctx, a, .error ("undefined fact: " ++ p))) := by
  have hbool : c.IsBooleanOperator = false := by
    simp [ConditionRec.IsBooleanOperator, ConditionRec.booleanOperator, hall, hany, hnot]
  have hcref : c.IsConditionReference = false := by
    simp [ConditionRec.IsConditionReference, hcr]
  constructor
  · intro hA
    have hfv : a.FactValue p = .ok (none, a) := by
      simp [Almanac.FactValue, hmap, hraw, hA]
    have hev : c.Evaluate a ops =
        .ok ({ Result := false, LeftHandSideValue := none,
               RightHandSideValue := c.value, Operator := c.operator }, a) := by
      simp [ConditionRec.Evaluate, hbool, hop, hfact, hfv]
    refine ⟨hfv, hev, ?_⟩
    intro n eng ctx hops
    simp [evaluateCondition, hcref, hall, hany, hnot, hbool, hops, hev]
  · intro hA
    have hfv : a.FactValue p = .error ("undefined fact: " ++ p) := by
      simp [Almanac.FactValue, hmap, hraw, hA]
    have hev : c.Evaluate a ops = .error ("undefined fact: " ++ p) := by
      simp [ConditionRec.Evaluate, hbool, hop, hfact, hfv]
    refine ⟨hfv, hev, ?_⟩
    intro n eng ctx hops
    simp [evaluateCondition, hcref, hall, hany, hnot, hbool, hops, hev]

/-- Witness for `c3_undefined_fact`: the path `score` is absent from the
empty facts JSON; with the option on the leaf evaluates false without
error, with it off the evaluation is the undefined-fact error. -/
theorem c3_undefined_fact_witness :
    leafMissing.Evaluate almEmptyAllow defaultOperatorMap =
      .ok ({ Result := false, LeftHandSideValue := none,
             RightHandSideValue := leafMissing.value,
             Operator := leafMissing.operator }, almEmptyAllow) ∧
    leafMissing.Evaluate almEmpty defaultOperatorMap =
      .error "undefined fact: score" ∧
    evaluateCondition 3 baseEngine newExecutionContext almEmpty leafMissing =
      (newExecutionContext, almEmpty, .error "undefined fact: score") :=
  ⟨((c3_undefined_fact almEmptyAllow "score" defaultOperatorMap equalOperator
      leafMissing rfl rfl rfl rfl rfl rfl rfl rfl).1 rfl).2.1,
   ((c3_undefined_fact almEmpty "score" defaultOperatorMap equalOperator
      leafMissing rfl rfl rfl rfl rfl rfl rfl rfl).2 rfl).2.1,
   ((c3_undefined_fact almEmpty "score" defaultOperatorMap equalOperator
      leafMissing rfl rfl rfl rfl rfl rfl rfl rfl).2 rfl).2.2 2 baseEngine
      newExecutionContext rfl⟩

/-- The fact-seeding loop of `runInternal` on a store of facts whose
callbacks return normally: it succeeds and appends to the log exactly
the paths of the dynamic facts, in store order — static facts do not
appear, and each binding contributes one entry. -/
theorem seedFacts_clean_log :
    ∀ (l : List (String × Fact)) (a : Almanac) (log : List String),
      (∀ kf ∈ l, calculatesCleanly kf.2 = true) →
      ∃ a', seedFacts a log l =
        .ok (a', log ++ (l.filter (fun kf => kf.2.Dynamic)).map (fun kf => kf.2.Path))
  | [], a, log, _ => ⟨a, by simp [seedFacts]⟩
  | (key, f) :: rest, a, log, h => by
    have hf : calculatesCleanly f = true := h (key, f) (by simp)
    have hrest : ∀ kf ∈ rest, calculatesCleanly kf.2 = true :=
      fun kf hk => h kf (by simp [hk])
    by_cases hd : f.Dynamic = true
    · rcases hm : f.CalculationMethod with _ | m
      · exfalso; simp [calculatesCleanly, hd, hm] at hf
      · cases m with
        | panics msg => exfalso; simp [calculatesCleanly, hd, hm] at hf
        | returns v =>
          obtain ⟨a', ih⟩ := seedFacts_clean_log rest
            (a.AddFact key { f with Value := some v }) (log ++ [f.Path]) hrest
          rw [hm, hd] at ih
          exact ⟨a', by simp [seedFacts, hd, Fact.Calculate, hm, ih]⟩
    · obtain ⟨a', ih⟩ := seedFacts_clean_log rest (a.AddFact key f) log hrest
      exact ⟨a', by simp [seedFacts, hd, ih]⟩

/-- C6 (amended): every dynamic fact registered on the engine has its
callback invoked exactly once per run — eagerly, during the fact-seeding
phase at the start of `runInternal`, before any rule or condition is
evaluated — whether or not anything references it; the invocation log of
a run is exactly the list of dynamic-fact paths in the store.  (The
almanac `FactValue` lookup never invokes a callback, so no further
invocation can occur during condition evaluation.) -/
theorem c6_dynamic_facts_seeded_eagerly
    (fuel : Nat) (e : Engine) (facts : GjsonValue)
    (h : ∀ kf ∈ e.Facts, calculatesCleanly kf.2 = true) :
    (Engine.runInternal fuel e facts).calcLog =
      (e.Facts.filter (fun kf => kf.2.Dynamic)).map (fun kf => kf.2.Path) := by
  obtain ⟨a', hs⟩ := seedFacts_clean_log e.Facts
    (NewAlmanac facts (some e.AllowUndefinedFacts)) [] h
  simp only [Engine.runInternal, hs]
  split <;> simp

/-- Witness for `c6_dynamic_facts_seeded_eagerly` at an engine holding a
static fact and a dynamic fact: the log is the dynamic path only. -/
theorem c6_dynamic_facts_seeded_eagerly_witness :
    (Engine.runInternal 5 engMixedFacts (.jsonObject [])).calcLog = ["score"] := by
  have := c6_dynamic_facts_seeded_eagerly 5 engMixedFacts (.jsonObject []) (by decide)
  simpa using this

/-- C6 (counterexample): an engine holding one cached dynamic fact and no
rules at all — so no evaluated condition references the fact — still
invokes the callback during the run: the run log is `["score"]`, not
empty as laziness would require. -/
theorem c6_unreferenced_dynamic_fact_invoked :
    engDynNoRules.Rules = [] ∧ dynScoreFact.Cached = true ∧
    (Engine.runInternal 5 engDynNoRules (.jsonObject [])).calcLog = ["score"] :=
  ⟨rfl, rfl, rfl⟩

/-- C10: a rule configuration whose event type is empty makes `NewRule`
return `(nil, error)`; `AddRuleFromMap` discards that error and calls
`SetEngine` on the nil rule, which panics with a nil-pointer dereference
instead of returning the error. -/
theorem c10_addRuleFromMap_nil_deref :
    NewRule badRuleConfig = .error "invalid event config Type must be provided" ∧
    Engine.AddRuleFromMap baseEngine (some badRuleConfig) =
      .panicked "runtime error: invalid memory address or nil pointer dereference" :=
  ⟨rfl, rfl⟩

end GoJson
